import Mathlib

/-!
Verification of the OpenJPH C wrapper (`openjph_wrapper.cpp` / `openjph_wrapper.h`).

The wrapper decodes an HTJ2K codestream into a flat interleaved pixel buffer.
We shallowly embed the wrapper's pure logic: the result structure
`ojph_decoded_image`, the bounded error channel `write_error`, the sample
clamps `clamp_to_uint16` / `clamp_to_uint8`, the float conversion helpers,
the validation/line-conversion pipeline `decode_codestream`, the public entry
point `ojph_decode_image`, and the release function `ojph_free_image`.

The external decoding engine (codestream parsing, wavelet reconstruction) is
out of scope for the wrapper and is modelled as an oracle (`Engine`): per
component metadata as read from the headers, a finite script of line pulls,
an allocation-success flag, and optional points where the engine raises a
C++ exception.  Machine integers are modelled as `Nat`/`Int` with explicit
`% 2 ^ w` where the C code performs narrowing casts; C `float` sample values
are modelled as exact rationals (every representable float value is a
rational, and `std::lround` rounds the represented value exactly).
-/

/-- Model of the C struct `ojph_decoded_image`.  The two pixel pointers are
modelled as optional buffer contents: `none` is a null pointer. -/
structure ojph_decoded_image where
  width : Nat
  height : Nat
  components : Nat
  bit_depth : Nat
  is_signed : Nat
  is_float : Nat
  reserved : Nat
  pixel_count : Nat
  pixels8 : Option (List Nat)
  pixels16 : Option (List Nat)
  deriving DecidableEq, Repr

/-- The all-zero result entity: the state of an `ojph_decoded_image` after
`memset(out_image, 0, sizeof(*out_image))` or after `ojph_free_image`. -/
def zeroImage : ojph_decoded_image :=
  { width := 0, height := 0, components := 0, bit_depth := 0, is_signed := 0,
    is_float := 0, reserved := 0, pixel_count := 0, pixels8 := none, pixels16 := none }

/-- Model of the C enum `ojph_status`. -/
inductive ojph_status where
  | OJPH_STATUS_OK
  | OJPH_STATUS_UNSUPPORTED
  | OJPH_STATUS_ERROR
  deriving DecidableEq, Repr

/-- Model of `write_error(dst, max_len, msg)`.  The destination region is the
byte contents of the caller's buffer (`none` models a null pointer), `max_len`
its declared capacity, `msg` the C string to record (`none` models a null
message pointer).  `memcpy` of `to_copy` bytes followed by the terminator
overwrites the first `to_copy + 1` bytes of the region. -/
def write_error (dst : Option (List Nat)) (max_len : Nat) (msg : Option (List Nat)) :
    Option (List Nat) :=
  match dst, msg with
  | none, _ => none
  | some buf, none => some buf
  | some buf, some m =>
    if max_len = 0 then some buf
    else
      let to_copy := min (max_len - 1) m.length
      some (m.take to_copy ++ [0] ++ buf.drop (to_copy + 1))

/-- The two-sided conditional clamp that the C helpers apply:
`if (value < lo) value = lo; if (value > hi) value = hi;`. -/
def clampInt (value lo hi : Int) : Int :=
  if value < lo then lo else if hi < value then hi else value

/-- Model of `clamp_to_uint16(value, bit_depth, is_signed)`.  The C casts
`static_cast<uint16_t>(static_cast<int16_t>(v))` keep the low 16 bits of the
clamped value, i.e. reduce it modulo `2 ^ 16`. -/
def clamp_to_uint16 (value : Int) (bit_depth : Nat) (is_signed : Bool) : Nat :=
  if 16 ≤ bit_depth ∧ is_signed = false then
    (clampInt value 0 65535).toNat
  else if is_signed then
    let min_val : Int := -(2 ^ (bit_depth - 1))
    let max_val : Int := 2 ^ (bit_depth - 1) - 1
    ((clampInt value min_val max_val) % 65536).toNat
  else
    let max_val : Int := if 16 ≤ bit_depth then 65535 else 2 ^ bit_depth - 1
    (clampInt value 0 max_val).toNat

/-- Model of `clamp_to_uint8(value, bit_depth)`. -/
def clamp_to_uint8 (value : Int) (bit_depth : Nat) : Nat :=
  let max_val : Int := if 8 ≤ bit_depth then 255 else 2 ^ bit_depth - 1
  (clampInt value 0 max_val).toNat

/-- Model of C `std::lround`: round to the nearest integer, ties away from
zero.  The float argument's represented value is an exact rational. -/
def lround (q : ℚ) : Int :=
  if q < 0 then -((-q + 1 / 2).floor) else (q + 1 / 2).floor

/-- The C narrowing cast `static_cast<int32_t>` applied to `std::lround`'s
`long` result: reduce modulo `2 ^ 32` into `[-2 ^ 31, 2 ^ 31 - 1]`. -/
def toInt32 (v : Int) : Int :=
  (v + 2 ^ 31) % 2 ^ 32 - 2 ^ 31

/-- Model of `float_to_uint8(value, bit_depth)`: round, narrow the rounded
`long` to `int32_t` (wrapping), then clamp. -/
def float_to_uint8 (value : ℚ) (bit_depth : Nat) : Nat :=
  clamp_to_uint8 (toInt32 (lround value)) bit_depth

/-- Model of `float_to_uint16(value, bit_depth, is_signed)`: round, narrow
the rounded `long` to `int32_t` (wrapping), then clamp. -/
def float_to_uint16 (value : ℚ) (bit_depth : Nat) (is_signed : Bool) : Nat :=
  clamp_to_uint16 (toInt32 (lround value)) bit_depth is_signed

/-- Number of `free` calls `ojph_free_image` performs on an entity: one for
each pixel pointer that is non-null. -/
def free_buffers (img : ojph_decoded_image) : Nat :=
  (match img.pixels8 with | some _ => 1 | none => 0) +
  (match img.pixels16 with | some _ => 1 | none => 0)

/-- Model of `ojph_free_image(image)`.  `none` models a null `image` pointer
(the function returns immediately).  The result is the final contents of the
entity together with the number of buffers freed by this call. -/
def ojph_free_image : Option ojph_decoded_image → Option ojph_decoded_image × Nat
  | none => (none, 0)
  | some img => (some zeroImage, free_buffers img)

/-- Model of `ojph::line_buf` as consumed by the wrapper: the flag word
selects the integer view `i32` (checked first), the float view `f32`, or an
unrecognized layout.  The declared `size` of the line is the sample list's
length. -/
inductive line_buf where
  | intLine (samples : List Int)
  | floatLine (samples : List ℚ)
  | otherLayout
  deriving DecidableEq

/-- Outcome of one `cs.pull(comp_index)` call: a line together with the
component index the engine reports back through `comp_index` (which may
differ from the requested one), a null line, or a C++ exception carrying a
message. -/
inductive PullResult where
  | line (comp : Nat) (buf : line_buf)
  | noLine
  | raise (msg : String)
  deriving DecidableEq

/-- Per-component metadata as produced by `cs.access_siz()` after
`read_headers`: mirrors `get_num_components`, `get_recon_width`,
`get_recon_height`, `get_downsampling`, `get_bit_depth`, `is_signed`. -/
structure SizInfo where
  num_components : Nat
  recon_width : Nat → Nat
  recon_height : Nat → Nat
  downsampling : Nat → Nat × Nat
  bit_depth : Nat → Nat
  is_signed : Nat → Bool

/-- Oracle for the external decoding engine during one decode call:
an optional exception raised while reading headers, the header metadata,
a finite script of pull outcomes consumed in call order (an exhausted script
pulls a null line), and whether the final `malloc` succeeds. -/
structure Engine where
  read_exn : Option String
  siz : SizInfo
  pulls : List PullResult
  alloc_ok : Bool

/-- How `decode_codestream` terminates: a populated image (`return true`),
a handled failure with its diagnostic message (`return false`), or a C++
exception escaping to the caller's catch blocks. -/
inductive CsResult where
  | ok (img : ojph_decoded_image)
  | fail (msg : String)
  | exn (msg : String)
  deriving DecidableEq

/-- A failure inside the row/component pull loops: a handled failure
(`return false`) or a C++ exception from the engine. -/
inductive CsFail where
  | fail (msg : String)
  | exn (msg : String)
  deriving DecidableEq

/-- The component-homogeneity loop of `decode_codestream` (lines 105-127):
check components `c, c + 1, …, c + k - 1` against component 0 and return the
first mismatch's message, field order: geometry, downsampling, bit depth,
signedness. -/
def validate_components (siz : SizInfo) : Nat → Nat → Option String
  | _, 0 => none
  | c, k + 1 =>
    if siz.recon_width c ≠ siz.recon_width 0 ∨ siz.recon_height c ≠ siz.recon_height 0 then
      some "subsampled components are not yet supported"
    else if siz.downsampling c ≠ siz.downsampling 0 then
      some "component downsampling mismatch is not supported"
    else if siz.bit_depth c ≠ siz.bit_depth 0 then
      some "mixed component bit depth is not supported"
    else if siz.is_signed c ≠ siz.is_signed 0 then
      some "mixed signed/unsigned components are not supported"
    else
      validate_components siz (c + 1) k

/-- Write converted samples into the working buffer at indices
`i, i + stride, i + 2 * stride, …`: the body of the per-line `for (x …)`
loops. -/
def store_samples (stride : Nat) : List Nat → Nat → List Nat → List Nat
  | [], _, dst => dst
  | s :: rest, i, dst => store_samples stride rest (i + stride) (dst.set i s)

/-- One line's write into the working buffer: `samples_in_line =
min(line->size, width)` samples go to `base_index + x * num_components`
where `base_index = row * width * num_components + comp`. -/
def store_line (dst : List Nat) (samples : List Nat) (width numc row comp : Nat) :
    List Nat :=
  store_samples numc (samples.take (min samples.length width))
    (row * width * numc + comp) dst

/-- Element-wise conversion of a pulled line into output values, dispatching
on the line's layout flags exactly as the inner `if` chain does; `none` is
the "unsupported line buffer layout" case. -/
def line_to_nats (u8out : Bool) (bd : Nat) (sg : Bool) : line_buf → Option (List Nat)
  | .intLine s =>
    some (if u8out then s.map (fun v => clamp_to_uint8 v bd)
          else s.map (fun v => clamp_to_uint16 v bd sg))
  | .floatLine s =>
    some (if u8out then s.map (fun v => float_to_uint8 v bd)
          else s.map (fun v => float_to_uint16 v bd sg))
  | .otherLayout => none

/-- The inner `for (comp …)` loop of `decode_codestream` for one row: pull a
line, resynchronize `comp` to the index the engine reports, convert and
store the line, and continue with `comp + 1`.  Failure messages are exactly
the C ones. -/
def comp_loop (numc width bd : Nat) (sg : Bool) (u8out : Bool) (row : Nat) :
    List PullResult → Nat → List Nat → Except CsFail (List Nat × List PullResult)
  | [], comp, buf =>
    if comp < numc then .error (.fail "failed to pull line from codestream")
    else .ok (buf, [])
  | p :: rest, comp, buf =>
    if comp < numc then
      match p with
      | .noLine => .error (.fail "failed to pull line from codestream")
      | .raise m => .error (.exn m)
      | .line rc lb =>
        match line_to_nats u8out bd sg lb with
        | none => .error (.fail "unsupported line buffer layout")
        | some samples =>
          comp_loop numc width bd sg u8out row rest
            (rc + 1) (store_line buf samples width numc row rc)
    else
      .ok (buf, p :: rest)

/-- The outer `for (row …)` loop: run `comp_loop` for rows
`row, row + 1, …`, `rows_left` of them. -/
def row_loop (numc width bd : Nat) (sg : Bool) (u8out : Bool) :
    Nat → Nat → List Nat → List PullResult → Except CsFail (List Nat)
  | 0, _, buf, _ => .ok buf
  | rows_left + 1, row, buf, pulls =>
    match comp_loop numc width bd sg u8out row pulls 0 buf with
    | .error e => .error e
    | .ok (bufNext, pullsNext) =>
      row_loop numc width bd sg u8out rows_left (row + 1) bufNext pullsNext

/-- The populated result entity built at the end of a successful
`decode_codestream` (lines 193-221); the `uint16_t` casts of the component
count and bit depth keep the low 16 bits. -/
def mkImage (eng : Engine) (buf : List Nat) : ojph_decoded_image :=
  { width := eng.siz.recon_width 0,
    height := eng.siz.recon_height 0,
    components := eng.siz.num_components % 65536,
    bit_depth := eng.siz.bit_depth 0 % 65536,
    is_signed := if eng.siz.is_signed 0 then 1 else 0,
    is_float := 0,
    reserved := 0,
    pixel_count := eng.siz.recon_width 0 * eng.siz.recon_height 0 * eng.siz.num_components,
    pixels8 := if eng.siz.bit_depth 0 ≤ 8 ∧ eng.siz.is_signed 0 = false then some buf else none,
    pixels16 := if eng.siz.bit_depth 0 ≤ 8 ∧ eng.siz.is_signed 0 = false then none else some buf }

/-- Model of `decode_codestream`.  The second component counts pixel-buffer
allocations performed so far: the working `std::vector` resize counts one,
the final `malloc` (when it succeeds) a second; all validation failures
happen before any allocation. -/
def decode_codestream (eng : Engine) : CsResult × Nat :=
  match eng.read_exn with
  | some m => (.exn m, 0)
  | none =>
    let numc := eng.siz.num_components
    if numc = 0 then (.fail "codestream has no components", 0)
    else
      match validate_components eng.siz 1 (numc - 1) with
      | some m => (.fail m, 0)
      | none =>
        let width := eng.siz.recon_width 0
        let height := eng.siz.recon_height 0
        let bd0 := eng.siz.bit_depth 0
        let sg0 := eng.siz.is_signed 0
        let u8out : Bool := decide (bd0 ≤ 8) && !sg0
        let total := width * height * numc
        match row_loop numc width bd0 sg0 u8out height 0 (List.replicate total 0) eng.pulls with
        | .error (.fail m) => (.fail m, 1)
        | .error (.exn m) => (.exn m, 1)
        | .ok buf =>
          if eng.alloc_ok then (.ok (mkImage eng buf), 2)
          else (.fail "memory allocation failure", 1)

/-- Model of the public entry point `ojph_decode_image`.  `data = none`
models a null codestream pointer and `slot = none` a null result pointer;
the returned tuple is the status, the final contents of the caller's result
slot, the message handed to the error channel (if any), and the number of
pixel-buffer allocations performed.  After the argument check the slot is
zeroed (`memset`); a handled failure leaves it zeroed, and an exception path
additionally runs `ojph_free_image` on the zeroed slot. -/
def ojph_decode_image (data : Option (List Nat)) (length : Nat)
    (slot : Option ojph_decoded_image) (eng : Engine) :
    ojph_status × Option ojph_decoded_image × Option String × Nat :=
  if data = none ∨ length = 0 ∨ slot = none then
    (.OJPH_STATUS_ERROR, slot, some "invalid arguments", 0)
  else
    match decode_codestream eng with
    | (.ok img, a) => (.OJPH_STATUS_OK, some img, none, a)
    | (.fail m, a) => (.OJPH_STATUS_UNSUPPORTED, some zeroImage, some m, a)
    | (.exn m, a) => (.OJPH_STATUS_ERROR, (ojph_free_image (some zeroImage)).1, some m, a)

/-! ## Theorems -/

/-- The conditional clamp equals the `max`/`min` saturation of the
specification when the range is nonempty. -/
theorem clampInt_eq_max_min (v lo hi : Int) (h : lo ≤ hi) :
    clampInt v lo hi = max lo (min v hi) := by
  unfold clampInt; split_ifs <;> omega

/-- Claim C3: every integer sample is stored as the pure clamp of its value
to the range determined by bit depth and signedness — `[0, 2 ^ d - 1]` for
unsigned depth below 16, `[0, 65535]` for unsigned depth 16 or more, and
`[-2 ^ (d - 1), 2 ^ (d - 1) - 1]` for signed depth, stored as the
two's-complement bit pattern of the clamped value in a 16-bit container;
the 8-bit output path clamps to `[0, min 255 (2 ^ d - 1)]`. -/
theorem c3_integer_saturation (v : Int) (d : Nat) (hd : 1 ≤ d) :
    (d < 16 → clamp_to_uint16 v d false = (max 0 (min v (2 ^ d - 1))).toNat)
  ∧ (16 ≤ d → clamp_to_uint16 v d false = (max 0 (min v 65535)).toNat)
  ∧ clamp_to_uint16 v d true =
      ((max (-(2 ^ (d - 1))) (min v (2 ^ (d - 1) - 1))) % 65536).toNat
  ∧ clamp_to_uint8 v d = (max 0 (min v (min 255 (2 ^ d - 1)))).toNat := by
  have hpow : (0 : Int) < 2 ^ d := by positivity
  have hpow1 : (0 : Int) < 2 ^ (d - 1) := by positivity
  refine ⟨?_, ?_, ?_, ?_⟩
  · intro hlt
    simp only [clamp_to_uint16]
    rw [if_neg (fun h => absurd h.1 (by omega)), if_neg (by simp), if_neg (by omega),
      clampInt_eq_max_min _ _ _ (by omega)]
  · intro hge
    simp only [clamp_to_uint16]
    rw [if_pos ⟨hge, trivial⟩, clampInt_eq_max_min _ _ _ (by omega)]
  · simp only [clamp_to_uint16]
    rw [if_neg (fun h => absurd h.2 (by simp)), if_pos trivial,
      clampInt_eq_max_min _ _ _ (by omega)]
  · simp only [clamp_to_uint8]
    split_ifs with h8
    · have h255 : (255 : Int) ≤ 2 ^ d - 1 := by
        have : (2 : Int) ^ 8 ≤ 2 ^ d := pow_le_pow_right₀ (by norm_num) h8
        omega
      rw [clampInt_eq_max_min v 0 255 (by omega)]
      congr 1
      omega
    · have h255 : 2 ^ d - 1 < (255 : Int) := by
        have : (2 : Int) ^ d ≤ 2 ^ 7 := pow_le_pow_right₀ (by norm_num) (by omega)
        omega
      rw [clampInt_eq_max_min v 0 (2 ^ d - 1) (by omega)]
      congr 1
      omega

/-- Witness for C3 at the signed 16-bit input `-1`, also checking the spec's
example that the stored bit pattern is `0xFFFF`. -/
theorem c3_integer_saturation_witness :
    (1 ≤ 16)
  ∧ ((16 < 16 → clamp_to_uint16 (-1) 16 false = (max 0 (min (-1) (2 ^ 16 - 1))).toNat)
  ∧ (16 ≤ 16 → clamp_to_uint16 (-1) 16 false = (max 0 (min (-1) 65535)).toNat)
  ∧ clamp_to_uint16 (-1) 16 true =
      ((max (-(2 ^ (16 - 1))) (min (-1) (2 ^ (16 - 1) - 1))) % 65536).toNat
  ∧ clamp_to_uint8 (-1) 16 = (max 0 (min (-1) (min 255 (2 ^ 16 - 1)))).toNat)
  ∧ clamp_to_uint16 (-1) 16 true = 65535 :=
  ⟨by decide, c3_integer_saturation (-1) 16 (by decide), by decide⟩

/-- The computable `Rat.floor` agrees with the `FloorRing` floor on `ℚ`. -/
theorem ratFloor_eq_intFloor (q : ℚ) : q.floor = ⌊q⌋ := rfl

/-- Rounding by `lround` is nearest-integer with ties away from zero: it is
within `1 / 2` of its argument, and at an exact tie its absolute value
exceeds the argument's by `1 / 2` (it moved away from zero). -/
theorem lround_half_away (q : ℚ) :
    |(lround q : ℚ) - q| ≤ 1 / 2
  ∧ (|(lround q : ℚ) - q| = 1 / 2 → |(lround q : ℚ)| = |q| + 1 / 2) := by
  unfold lround
  split_ifs with hq
  · set m := ⌊-q + 1 / 2⌋ with hm
    rw [ratFloor_eq_intFloor, ← hm]
    have h1 : (m : ℚ) ≤ -q + 1 / 2 := Int.floor_le _
    have h2 : -q + 1 / 2 < m + 1 := Int.lt_floor_add_one _
    have habs : |((-m : Int) : ℚ) - q| = |(m : ℚ) - (-q)| := by
      push_cast
      rw [show -(m : ℚ) - q = -((m : ℚ) - -q) by ring, abs_neg]
    constructor
    · rw [habs, abs_le]
      constructor <;> linarith
    · intro htie
      rw [habs] at htie
      have hcases := abs_eq (by norm_num : (0:ℚ) ≤ 1/2) |>.mp htie
      have hmq : (m : ℚ) = -q + 1 / 2 := by
        rcases hcases with h | h
        · linarith
        · linarith
      push_cast
      rw [abs_neg, abs_of_neg hq, abs_of_pos (by linarith : (0:ℚ) < (m:ℚ))]
      linarith
  · push_neg at hq
    set n := ⌊q + 1 / 2⌋ with hn
    rw [ratFloor_eq_intFloor, ← hn]
    have h1 : (n : ℚ) ≤ q + 1 / 2 := Int.floor_le _
    have h2 : q + 1 / 2 < n + 1 := Int.lt_floor_add_one _
    constructor
    · rw [abs_le]
      constructor <;> linarith
    · intro htie
      have hcases := abs_eq (by norm_num : (0:ℚ) ≤ 1/2) |>.mp htie
      have hnq : (n : ℚ) = q + 1 / 2 := by
        rcases hcases with h | h
        · linarith
        · linarith
      rw [abs_of_nonneg hq, abs_of_nonneg (by linarith : (0:ℚ) ≤ (n:ℚ))]
      linarith

/-- Narrowing to `int32_t` is the identity on values already in the
`int32_t` range. -/
theorem toInt32_eq_self (v : Int) (hlo : -(2 ^ 31) ≤ v) (hhi : v < 2 ^ 31) :
    toInt32 v = v := by
  unfold toInt32
  omega

/-- Counterexample to C4 as stated: the float sample `2 ^ 32 = 4294967296`
(an exact C `float`) at unsigned depth 8 rounds to `2 ^ 32`, which the
claimed round-then-saturate would clamp to 255; the program instead narrows
the rounded `long` to `int32_t` first, wrapping `2 ^ 32` to 0, and stores
0. -/
theorem c4_counterexample_int32_wrap :
    lround (4294967296 : ℚ) = 4294967296
  ∧ float_to_uint8 (4294967296 : ℚ) 8 = 0
  ∧ clamp_to_uint8 4294967296 8 = 255
  ∧ float_to_uint8 (4294967296 : ℚ) 8 ≠ clamp_to_uint8 (lround (4294967296 : ℚ)) 8 := by
  have hl : lround (4294967296 : ℚ) = 4294967296 := by
    rw [lround, if_neg (by norm_num), ratFloor_eq_intFloor]
    norm_num
  refine ⟨hl, ?_, by decide, ?_⟩
  · rw [float_to_uint8, hl]
    decide
  · rw [float_to_uint8, hl]
    decide

/-- Claim C4 (amended): every floating-point sample is rounded to the
nearest integer with ties away from zero, the rounded value is narrowed to
a 32-bit signed integer (wrapping modulo `2 ^ 32`, the C
`static_cast<int32_t>` of `std::lround`'s result), and the narrowed value
is saturated by exactly the same clamp as the integer path for the same bit
depth and signedness.  Whenever the rounded value already lies in the
`int32_t` range the narrowing is the identity, so round-then-saturate
holds there; in particular a sample of `127.5` at unsigned 8-bit depth is
stored as `128`. -/
theorem c4_amended_float_round_wrap_clamp (q : ℚ) (d : Nat) (s : Bool) :
    |(lround q : ℚ) - q| ≤ 1 / 2
  ∧ (|(lround q : ℚ) - q| = 1 / 2 → |(lround q : ℚ)| = |q| + 1 / 2)
  ∧ float_to_uint16 q d s = clamp_to_uint16 (toInt32 (lround q)) d s
  ∧ float_to_uint8 q d = clamp_to_uint8 (toInt32 (lround q)) d
  ∧ (-(2 ^ 31) ≤ lround q → lround q < 2 ^ 31 →
      float_to_uint16 q d s = clamp_to_uint16 (lround q) d s
      ∧ float_to_uint8 q d = clamp_to_uint8 (lround q) d)
  ∧ float_to_uint8 (255 / 2) 8 = 128 := by
  obtain ⟨h1, h2⟩ := lround_half_away q
  refine ⟨h1, h2, rfl, rfl, ?_, ?_⟩
  · intro hlo hhi
    rw [float_to_uint16, float_to_uint8, toInt32_eq_self (lround q) hlo hhi]
    exact ⟨rfl, rfl⟩
  · have hl : lround (255 / 2 : ℚ) = 128 := by
      rw [lround, if_neg (by norm_num), ratFloor_eq_intFloor]
      norm_num
    rw [float_to_uint8, hl]
    decide

/-- Claim C9: releasing a result entity frees exactly the non-null buffer
handles, zeroes the whole entity, and a second release on the result is a
safe no-op that frees nothing — release after release equals release. -/
theorem c9_release_idempotent (img : ojph_decoded_image) :
    (ojph_free_image (some img)).1 =
      some { width := 0, height := 0, components := 0, bit_depth := 0, is_signed := 0,
             is_float := 0, reserved := 0, pixel_count := 0, pixels8 := none, pixels16 := none }
  ∧ (ojph_free_image (some img)).2 =
      (if img.pixels8.isSome then 1 else 0) + (if img.pixels16.isSome then 1 else 0)
  ∧ ojph_free_image ((ojph_free_image (some img)).1) = (some zeroImage, 0)
  ∧ ojph_free_image (some zeroImage) = (some zeroImage, 0) := by
  obtain ⟨w, h, c, b, sg, fl, r, pc, p8, p16⟩ := img
  refine ⟨rfl, ?_, rfl, rfl⟩
  rcases p8 <;> rcases p16 <;> rfl

/-- Claim C8: the error-channel write stores a null-terminated copy of the
message truncated to at most capacity − 1 bytes plus the terminator, leaves
the rest of the destination region untouched, and is a no-op when the
destination pointer is null or the capacity is zero. -/
theorem c8_error_channel_truncation (buf m : List Nat) (cap : Nat)
    (hcap : 0 < cap) (hlen : cap ≤ buf.length) :
    write_error none cap (some m) = none
  ∧ write_error (some buf) 0 (some m) = some buf
  ∧ ∃ out, write_error (some buf) cap (some m) = some out
      ∧ out.length = buf.length
      ∧ min (cap - 1) m.length + 1 ≤ cap
      ∧ out.take (min (cap - 1) m.length) = m.take (min (cap - 1) m.length)
      ∧ out[min (cap - 1) m.length]? = some 0
      ∧ out.drop (min (cap - 1) m.length + 1) = buf.drop (min (cap - 1) m.length + 1) := by
  refine ⟨rfl, rfl, ?_⟩
  set t := min (cap - 1) m.length with ht
  have htm : t ≤ m.length := by omega
  have htc : t + 1 ≤ cap := by omega
  have e1 : (m.take t).length = t := by rw [List.length_take]; omega
  have e2 : (m.take t ++ [0]).length = t + 1 := by
    rw [List.length_append, e1]; rfl
  refine ⟨m.take t ++ [0] ++ buf.drop (t + 1), ?_, ?_, htc, ?_, ?_, ?_⟩
  · simp only [write_error]
    rw [if_neg (by omega)]
  · simp only [List.length_append, List.length_drop, e1]
    simp only [List.length_cons, List.length_nil]
    omega
  · rw [List.take_append_of_le_length (by rw [e2]; omega),
      List.take_append_of_le_length (by rw [e1]),
      List.take_take, Nat.min_self]
  · rw [List.getElem?_append_left (by rw [e2]; omega),
      List.getElem?_append_right (by rw [e1])]
    simp [e1]
  · rw [List.drop_left' e2]

/-- Witness for C8: capacity 4 against a 5-byte message in a 5-byte buffer
truncates to 3 copied bytes plus the terminator and keeps the final byte. -/
theorem c8_error_channel_truncation_witness :
    0 < 4 ∧ 4 ≤ [9, 9, 9, 9, 9].length
  ∧ (write_error none 4 (some [65, 66, 67, 68, 69]) = none
  ∧ write_error (some [9, 9, 9, 9, 9]) 0 (some [65, 66, 67, 68, 69]) = some [9, 9, 9, 9, 9]
  ∧ ∃ out, write_error (some [9, 9, 9, 9, 9]) 4 (some [65, 66, 67, 68, 69]) = some out
      ∧ out.length = [9, 9, 9, 9, 9].length
      ∧ min (4 - 1) [65, 66, 67, 68, 69].length + 1 ≤ 4
      ∧ out.take (min (4 - 1) [65, 66, 67, 68, 69].length) =
          [65, 66, 67, 68, 69].take (min (4 - 1) [65, 66, 67, 68, 69].length)
      ∧ out[min (4 - 1) [65, 66, 67, 68, 69].length]? = some 0
      ∧ out.drop (min (4 - 1) [65, 66, 67, 68, 69].length + 1) =
          [9, 9, 9, 9, 9].drop (min (4 - 1) [65, 66, 67, 68, 69].length + 1)) :=
  ⟨by decide, by decide,
    c8_error_channel_truncation [9, 9, 9, 9, 9] [65, 66, 67, 68, 69] 4
      (by decide) (by decide)⟩

/-- A one-component 8-bit unsigned engine whose single pull yields one
integer line of two samples: decodes successfully. -/
def engOk : Engine :=
  { read_exn := none,
    siz := { num_components := 1, recon_width := fun _ => 2, recon_height := fun _ => 1,
             downsampling := fun _ => (1, 1), bit_depth := fun _ => 8,
             is_signed := fun _ => false },
    pulls := [.line 0 (.intLine [300, -5])],
    alloc_ok := true }

/-- An engine whose codestream has zero components: decode fails during
validation with "codestream has no components". -/
def engNoComp : Engine :=
  { read_exn := none,
    siz := { num_components := 0, recon_width := fun _ => 0, recon_height := fun _ => 0,
             downsampling := fun _ => (1, 1), bit_depth := fun _ => 0,
             is_signed := fun _ => false },
    pulls := [], alloc_ok := true }

/-- A result entity holding a stale non-null 8-bit buffer handle, as a caller
might pass in an uninitialized or previously used structure. -/
def dirtyImage : ojph_decoded_image := { zeroImage with pixels8 := some [7] }

/-- Claim C6: a null codestream pointer, zero length, or null result slot
returns status `ERROR` with message "invalid arguments", performs no
allocation, and the outcome does not depend on the engine at all (the check
precedes any engine interaction). -/
theorem c6_invalid_arguments (data : Option (List Nat)) (len : Nat)
    (slot : Option ojph_decoded_image) (eng eng2 : Engine)
    (h : data = none ∨ len = 0 ∨ slot = none) :
    ojph_decode_image data len slot eng =
      (.OJPH_STATUS_ERROR, slot, some "invalid arguments", 0)
  ∧ ojph_decode_image data len slot eng = ojph_decode_image data len slot eng2 := by
  unfold ojph_decode_image
  rw [if_pos h, if_pos h]
  exact ⟨rfl, rfl⟩

/-- Witness for C6 at a null data pointer, with two entirely different
engines. -/
theorem c6_invalid_arguments_witness :
    ((none : Option (List Nat)) = none ∨ (5 : Nat) = 0 ∨
        (some zeroImage : Option ojph_decoded_image) = none)
  ∧ (ojph_decode_image none 5 (some zeroImage) engOk =
      (.OJPH_STATUS_ERROR, some zeroImage, some "invalid arguments", 0)
  ∧ ojph_decode_image none 5 (some zeroImage) engOk =
      ojph_decode_image none 5 (some zeroImage) engNoComp) :=
  ⟨Or.inl rfl, c6_invalid_arguments none 5 (some zeroImage) engOk engNoComp (Or.inl rfl)⟩

/-- Claim C10: when the argument check fails on the data pointer or length
while the result slot is non-null, the call returns `ERROR` and the caller's
entity is left completely untouched. -/
theorem c10_invalid_args_leave_slot (data : Option (List Nat)) (len : Nat)
    (s : ojph_decoded_image) (eng : Engine) (h : data = none ∨ len = 0) :
    (ojph_decode_image data len (some s) eng).1 = .OJPH_STATUS_ERROR
  ∧ (ojph_decode_image data len (some s) eng).2.1 = some s := by
  have h' : data = none ∨ len = 0 ∨ (some s : Option ojph_decoded_image) = none := by
    tauto
  unfold ojph_decode_image
  rw [if_pos h']
  exact ⟨rfl, rfl⟩

/-- Witness for C10: a dirty entity with a stale non-null 8-bit handle
survives an invalid-arguments call unchanged, handle included. -/
theorem c10_invalid_args_leave_slot_witness :
    ((none : Option (List Nat)) = none ∨ (3 : Nat) = 0)
  ∧ ((ojph_decode_image none 3 (some dirtyImage) engOk).1 = .OJPH_STATUS_ERROR
  ∧ (ojph_decode_image none 3 (some dirtyImage) engOk).2.1 = some dirtyImage)
  ∧ dirtyImage.pixels8 = some [7] :=
  ⟨Or.inl rfl, c10_invalid_args_leave_slot none 3 dirtyImage engOk (Or.inl rfl), rfl⟩

/-- Counterexample to C2 as stated: a call with a null codestream pointer
and a dirty result entity returns a non-OK status yet leaves the entity's
8-bit handle non-null — the invalid-arguments path does not zero the
entity. -/
theorem c2_counterexample_dirty_slot :
    (ojph_decode_image none 3 (some dirtyImage) engOk).1 ≠ .OJPH_STATUS_OK
  ∧ (ojph_decode_image none 3 (some dirtyImage) engOk).2.1 = some dirtyImage
  ∧ dirtyImage.pixels8 ≠ none := by
  refine ⟨by decide, by decide, by decide⟩

/-- Claim C2 (amended): for every call that passes the argument validity
check and returns a non-OK status, the caller's result entity is fully
zeroed on return — both pixel buffer handles null — whichever failure path
(validation, mid-pipeline, allocation, or engine exception) was taken; the
invalid-arguments path instead leaves the entity untouched (see C10). -/
theorem c2_amended_nonok_entity_zeroed (d : List Nat) (len : Nat)
    (s : ojph_decoded_image) (eng : Engine) (hlen : len ≠ 0)
    (h : (ojph_decode_image (some d) len (some s) eng).1 ≠ .OJPH_STATUS_OK) :
    (ojph_decode_image (some d) len (some s) eng).2.1 = some zeroImage
  ∧ zeroImage.pixels8 = none ∧ zeroImage.pixels16 = none := by
  refine ⟨?_, rfl, rfl⟩
  unfold ojph_decode_image at h ⊢
  rw [if_neg (by simp [hlen])] at h ⊢
  rcases hdc : decode_codestream eng with ⟨r, a⟩
  simp only [hdc] at h ⊢
  cases r
  · exact absurd rfl h
  · rfl
  · rfl

/-- Witness for C2 (amended): a zero-component codestream with a dirty
entity returns UNSUPPORTED and zeroes the entity. -/
theorem c2_amended_nonok_entity_zeroed_witness :
    (1 : Nat) ≠ 0
  ∧ (ojph_decode_image (some [1]) 1 (some dirtyImage) engNoComp).1 ≠ .OJPH_STATUS_OK
  ∧ ((ojph_decode_image (some [1]) 1 (some dirtyImage) engNoComp).2.1 = some zeroImage
  ∧ zeroImage.pixels8 = none ∧ zeroImage.pixels16 = none) :=
  ⟨by decide, by decide,
    c2_amended_nonok_entity_zeroed [1] 1 dirtyImage engNoComp (by decide) (by decide)⟩

/-- Every image produced by a successful `decode_codestream` run is built by
the final population block `mkImage`. -/
theorem decode_ok_mkImage (eng : Engine) (img : ojph_decoded_image) (a : Nat)
    (h : decode_codestream eng = (.ok img, a)) :
    ∃ buf, img = mkImage eng buf := by
  unfold decode_codestream at h
  rcases hx : eng.read_exn with _ | m
  all_goals simp only [hx] at h
  · by_cases h0 : eng.siz.num_components = 0
    · rw [if_pos h0] at h
      simp at h
    · rw [if_neg h0] at h
      rcases hv : validate_components eng.siz 1 (eng.siz.num_components - 1) with _ | m
      all_goals simp only [hv] at h
      · split at h <;> try split at h
        all_goals simp at h
        all_goals exact ⟨_, h.1.symm⟩
      · simp at h
  · simp at h

/-- Claim C1: on status OK exactly one of the result entity's two pixel
buffer handles is non-null, and it is the 8-bit handle precisely when the
canonical bit depth is at most 8 and the samples are unsigned; otherwise the
16-bit handle is the one set. -/
theorem c1_ok_buffer_exclusivity (data : Option (List Nat)) (len : Nat)
    (slot : Option ojph_decoded_image) (eng : Engine) (img : ojph_decoded_image)
    (hok : (ojph_decode_image data len slot eng).1 = .OJPH_STATUS_OK)
    (himg : (ojph_decode_image data len slot eng).2.1 = some img) :
    ((img.pixels8.isSome = true ∧ img.pixels16 = none) ∨
     (img.pixels8 = none ∧ img.pixels16.isSome = true))
  ∧ (img.pixels8.isSome = true ↔
      (eng.siz.bit_depth 0 ≤ 8 ∧ eng.siz.is_signed 0 = false)) := by
  unfold ojph_decode_image at hok himg
  by_cases hbad : (data = none ∨ len = 0 ∨ slot = none)
  · rw [if_pos hbad] at hok
    simp at hok
  · rw [if_neg hbad] at hok himg
    rcases hdc : decode_codestream eng with ⟨r, a⟩
    simp only [hdc] at hok himg
    cases r with
    | fail m => simp at hok
    | exn m => simp at hok
    | ok i =>
      have hii : i = img := by simpa using himg
      obtain ⟨buf, hbuf⟩ := decode_ok_mkImage eng i a hdc
      rw [← hii, hbuf]
      unfold mkImage
      by_cases hc : (eng.siz.bit_depth 0 ≤ 8 ∧ eng.siz.is_signed 0 = false)
      · simp [hc]
      · simp [hc]

/-- The populated result of decoding the one-component 8-bit unsigned
engine `engOk`: two clamped 8-bit samples. -/
def imgOk : ojph_decoded_image :=
  { width := 2, height := 1, components := 1, bit_depth := 8, is_signed := 0,
    is_float := 0, reserved := 0, pixel_count := 2,
    pixels8 := some [255, 0], pixels16 := none }

/-- Witness for C1: decoding `engOk` returns OK with only the 8-bit handle
set, matching its depth-8 unsigned format. -/
theorem c1_ok_buffer_exclusivity_witness :
    (ojph_decode_image (some [1]) 1 (some zeroImage) engOk).1 = .OJPH_STATUS_OK
  ∧ (ojph_decode_image (some [1]) 1 (some zeroImage) engOk).2.1 = some imgOk
  ∧ (((imgOk.pixels8.isSome = true ∧ imgOk.pixels16 = none) ∨
      (imgOk.pixels8 = none ∧ imgOk.pixels16.isSome = true))
  ∧ (imgOk.pixels8.isSome = true ↔
      (engOk.siz.bit_depth 0 ≤ 8 ∧ engOk.siz.is_signed 0 = false))) :=
  ⟨by decide, by decide,
    c1_ok_buffer_exclusivity (some [1]) 1 (some zeroImage) engOk imgOk
      (by decide) (by decide)⟩

/-- When components `c, …, c + k - 1` all match component 0 in geometry,
downsampling, and signedness, and some component in that range differs in
bit depth, the validation loop reports the bit-depth mismatch. -/
theorem validate_first_mismatch_bit_depth (siz : SizInfo) (k : Nat) :
    ∀ c, (∀ j, c ≤ j → j < c + k →
        siz.recon_width j = siz.recon_width 0 ∧
        siz.recon_height j = siz.recon_height 0 ∧
        siz.downsampling j = siz.downsampling 0 ∧
        siz.is_signed j = siz.is_signed 0) →
      (∃ j, c ≤ j ∧ j < c + k ∧ siz.bit_depth j ≠ siz.bit_depth 0) →
      validate_components siz c k = some "mixed component bit depth is not supported" := by
  induction k with
  | zero =>
    intro c _ hbd
    obtain ⟨j, h1, h2, _⟩ := hbd
    omega
  | succ k ih =>
    intro c hgeo hbd
    obtain ⟨hw, hh, hds, hsg⟩ := hgeo c (le_refl c) (by omega)
    unfold validate_components
    rw [if_neg (by simp [hw, hh]), if_neg (by simp [hds])]
    by_cases hbc : siz.bit_depth c ≠ siz.bit_depth 0
    · rw [if_pos hbc]
    · push_neg at hbc
      rw [if_neg (by simp [hbc]), if_neg (by simp [hsg])]
      obtain ⟨j, h1, h2, h3⟩ := hbd
      have hjc : j ≠ c := fun he => h3 (he ▸ hbc)
      apply ih (c + 1)
      · intro j' hj1 hj2
        exact hgeo j' (by omega) (by omega)
      · exact ⟨j, by omega, by omega, h3⟩

/-- Claim C5 (amended): for every input whose components all share component
0's geometry, downsampling, and signedness but not its bit depth, the decode
call returns UNSUPPORTED with the message "mixed component bit depth is not
supported" (which mentions "bit depth"), and no pixel buffer is allocated. -/
theorem c5_mixed_bit_depth_unsupported (d : List Nat) (len : Nat)
    (s : ojph_decoded_image) (eng : Engine)
    (hlen : len ≠ 0) (hread : eng.read_exn = none)
    (hgeo : ∀ j, j < eng.siz.num_components →
        eng.siz.recon_width j = eng.siz.recon_width 0 ∧
        eng.siz.recon_height j = eng.siz.recon_height 0 ∧
        eng.siz.downsampling j = eng.siz.downsampling 0 ∧
        eng.siz.is_signed j = eng.siz.is_signed 0)
    (hbd : ∃ j, j < eng.siz.num_components ∧
        eng.siz.bit_depth j ≠ eng.siz.bit_depth 0) :
    (ojph_decode_image (some d) len (some s) eng).1 = .OJPH_STATUS_UNSUPPORTED
  ∧ (ojph_decode_image (some d) len (some s) eng).2.2.1 =
      some "mixed component bit depth is not supported"
  ∧ "bit depth".toList <:+: "mixed component bit depth is not supported".toList
  ∧ (ojph_decode_image (some d) len (some s) eng).2.2.2 = 0 := by
  obtain ⟨j, hj, hjbd⟩ := hbd
  have h0 : eng.siz.num_components ≠ 0 := by omega
  have hj1 : 1 ≤ j := by
    rcases Nat.eq_zero_or_pos j with hz | hp
    · exact absurd (hz ▸ hjbd) (by simp)
    · exact hp
  have hval : validate_components eng.siz 1 (eng.siz.num_components - 1) =
      some "mixed component bit depth is not supported" := by
    apply validate_first_mismatch_bit_depth
    · intro j' hj1' hj2'
      exact hgeo j' (by omega)
    · exact ⟨j, hj1, by omega, hjbd⟩
  have hdc : decode_codestream eng =
      (.fail "mixed component bit depth is not supported", 0) := by
    unfold decode_codestream
    simp only [hread]
    rw [if_neg h0]
    simp only [hval]
  unfold ojph_decode_image
  rw [if_neg (by simp [hlen])]
  simp only [hdc]
  refine ⟨trivial, trivial, ⟨"mixed component ".toList, " is not supported".toList, ?_⟩, trivial⟩
  decide

/-- An engine with two components of matching geometry and signedness but
differing bit depths (8 and 12). -/
def engMixedBd : Engine :=
  { read_exn := none,
    siz := { num_components := 2, recon_width := fun _ => 1, recon_height := fun _ => 1,
             downsampling := fun _ => (1, 1),
             bit_depth := fun c => if c = 0 then 8 else 12,
             is_signed := fun _ => false },
    pulls := [], alloc_ok := true }

/-- Witness for C5 on `engMixedBd`. -/
theorem c5_mixed_bit_depth_unsupported_witness :
    (1 : Nat) ≠ 0 ∧ engMixedBd.read_exn = none
  ∧ ((ojph_decode_image (some [1]) 1 (some zeroImage) engMixedBd).1 =
        .OJPH_STATUS_UNSUPPORTED
  ∧ (ojph_decode_image (some [1]) 1 (some zeroImage) engMixedBd).2.2.1 =
      some "mixed component bit depth is not supported"
  ∧ "bit depth".toList <:+: "mixed component bit depth is not supported".toList
  ∧ (ojph_decode_image (some [1]) 1 (some zeroImage) engMixedBd).2.2.2 = 0) :=
  ⟨by decide, rfl,
    c5_mixed_bit_depth_unsupported [1] 1 zeroImage engMixedBd (by decide) rfl
      (by decide) ⟨1, by decide, by decide⟩⟩

/-- Storing samples preserves the buffer length. -/
theorem store_samples_length (stride : Nat) (src : List Nat) :
    ∀ i dst, (store_samples stride src i dst).length = dst.length := by
  induction src with
  | nil => intro i dst; rfl
  | cons s rest ih =>
    intro i dst
    rw [store_samples, ih, List.length_set]

/-- Positions below the write base are untouched by `store_samples`. -/
theorem store_samples_getElem?_lt (stride : Nat) (src : List Nat) :
    ∀ i dst j, j < i → (store_samples stride src i dst)[j]? = dst[j]? := by
  induction src with
  | nil => intro i dst j _; rfl
  | cons s rest ih =>
    intro i dst j hj
    rw [store_samples, ih _ _ _ (by omega), List.getElem?_set_ne (by omega)]

/-- The `x`-th stored sample lands at offset `i + x * stride`. -/
theorem store_samples_getElem?_hit (stride : Nat) (hs : 0 < stride) (src : List Nat) :
    ∀ x i dst, x < src.length → i + x * stride < dst.length →
      (store_samples stride src i dst)[i + x * stride]? = src[x]? := by
  induction src with
  | nil => intro x i dst hx _; simp at hx
  | cons s rest ih =>
    intro x i dst hx hb
    match x with
    | 0 =>
      rw [store_samples]
      have h1 : i + 0 * stride = i := by omega
      rw [h1]
      rw [store_samples_getElem?_lt stride rest (i + stride) _ i (by omega)]
      rw [List.getElem?_set_self (by simpa [h1, List.length_set] using hb)]
      simp
    | x' + 1 =>
      rw [store_samples]
      have h2 : i + (x' + 1) * stride = (i + stride) + x' * stride := by ring
      rw [h2, ih x' (i + stride) _ (by simpa using hx)
        (by rw [List.length_set]; omega)]
      simp

/-- Positions not of the form `i + y * stride` are untouched. -/
theorem store_samples_getElem?_miss (stride : Nat) (src : List Nat) :
    ∀ i dst j, (∀ y, y < src.length → j ≠ i + y * stride) →
      (store_samples stride src i dst)[j]? = dst[j]? := by
  induction src with
  | nil => intro i dst j _; rfl
  | cons s rest ih =>
    intro i dst j hj
    rw [store_samples, ih (i + stride) _ j ?later]
    · rw [List.getElem?_set_ne]
      have h0 := hj 0 (by simp)
      have h0' : i + 0 * stride = i := by ring
      rw [h0'] at h0
      omega
    case later =>
      intro y hy
      have := hj (y + 1) (by simpa using Nat.succ_lt_succ hy)
      intro he
      apply this
      rw [he]
      ring

/-- The interleaved flat index of (row, sample, component) is within the
working buffer. -/
theorem interleaved_index_lt {row x c w h n : Nat} (hr : row < h) (hx : x < w) (hc : c < n) :
    row * w * n + x * n + c < w * h * n := by
  have h1 : x * n + c < w * n := by
    calc x * n + c < x * n + n := by omega
    _ = (x + 1) * n := by ring
    _ ≤ w * n := Nat.mul_le_mul_right n hx
  calc row * w * n + x * n + c = row * (w * n) + (x * n + c) := by ring
  _ < row * (w * n) + w * n := by omega
  _ = (row + 1) * (w * n) := by ring
  _ ≤ h * (w * n) := Nat.mul_le_mul_right _ hr
  _ = w * h * n := by ring

/-- Claim C7: a pulled line uses `min (line.length) width` samples, writing
the `x`-th converted sample of component `comp` in row `row` at flat index
`row * width * componentCount + x * componentCount + comp` of the
`width * height * componentCount`-element working buffer, and touches no
other index of that shape. -/
theorem c7_interleaved_line_write (dst samples : List Nat)
    (width height numc row comp x j : Nat)
    (hlen : dst.length = width * height * numc)
    (hrow : row < height) (hcomp : comp < numc)
    (hx : x < min samples.length width)
    (hj : ∀ y, y < min samples.length width →
        j ≠ row * width * numc + y * numc + comp) :
    (store_line dst samples width numc row comp).length = width * height * numc
  ∧ (store_line dst samples width numc row comp)[row * width * numc + x * numc + comp]? =
      samples[x]?
  ∧ store_line dst samples width numc row comp =
      store_line dst (samples.take width) width numc row comp
  ∧ (store_line dst samples width numc row comp)[j]? = dst[j]? := by
  have hstride : 0 < numc := by omega
  have htake : (samples.take (min samples.length width)).length
      = min samples.length width := by
    rw [List.length_take]
    omega
  have hxw : x < width := by omega
  have hxs : x < samples.length := by omega
  have hbound : (row * width * numc + comp) + x * numc < dst.length := by
    rw [hlen]
    have h := interleaved_index_lt hrow hxw hcomp
    linarith
  refine ⟨?_, ?_, ?_, ?_⟩
  · rw [store_line, store_samples_length, hlen]
  · rw [store_line,
      show row * width * numc + x * numc + comp
        = (row * width * numc + comp) + x * numc by ring,
      store_samples_getElem?_hit numc hstride (samples.take (min samples.length width))
        x (row * width * numc + comp) dst (by rw [htake]; omega) hbound]
    exact List.getElem?_take_of_lt hx
  · rw [store_line, store_line]
    have harg : (samples.take width).take (min (samples.take width).length width)
        = samples.take (min samples.length width) := by
      rw [List.take_take, List.length_take]
      congr 1
      omega
    rw [harg]
  · rw [store_line]
    apply store_samples_getElem?_miss
    intro y hy he
    rw [htake] at hy
    exact hj y hy (by rw [he]; ring)

/-- Witness for C7: a 2x3 two-component buffer, row 1, component 1, a
3-sample line clamped to the row width 2. -/
theorem c7_interleaved_line_write_witness :
    (List.replicate 12 0 : List Nat).length = 2 * 3 * 2
  ∧ (1 : Nat) < 3 ∧ (1 : Nat) < 2 ∧ (0 : Nat) < min [5, 6, 7].length 2
  ∧ (∀ y, y < min ([5, 6, 7] : List Nat).length 2 → (4 : Nat) ≠ 1 * 2 * 2 + y * 2 + 1)
  ∧ ((store_line (List.replicate 12 0) [5, 6, 7] 2 2 1 1).length = 2 * 3 * 2
  ∧ (store_line (List.replicate 12 0) [5, 6, 7] 2 2 1 1)[1 * 2 * 2 + 0 * 2 + 1]? =
      ([5, 6, 7] : List Nat)[0]?
  ∧ store_line (List.replicate 12 0) [5, 6, 7] 2 2 1 1 =
      store_line (List.replicate 12 0) ([5, 6, 7].take 2) 2 2 1 1
  ∧ (store_line (List.replicate 12 0) [5, 6, 7] 2 2 1 1)[4]? =
      (List.replicate 12 0 : List Nat)[4]?) :=
  ⟨by decide, by decide, by decide, by decide, by decide,
    c7_interleaved_line_write (List.replicate 12 0) [5, 6, 7] 2 3 2 1 1 0 4
      (by decide) (by decide) (by decide) (by decide) (by decide)⟩

/-- An engine whose second component differs from component 0 in both
reconstruction width and bit depth. -/
def engWidthAndBdMismatch : Engine :=
  { read_exn := none,
    siz := { num_components := 2,
             recon_width := fun c => if c = 0 then 1 else 2,
             recon_height := fun _ => 1, downsampling := fun _ => (1, 1),
             bit_depth := fun c => if c = 0 then 8 else 12,
             is_signed := fun _ => false },
    pulls := [], alloc_ok := true }

/-- Counterexample to C5 as stated: an input whose components do not all
share component 0's bit depth, yet the reported message is the geometry one
("subsampled components are not yet supported"), which does not mention
"bit depth" — the width/height check fires before the bit-depth check. -/
theorem c5_counterexample_geometry_first :
    engWidthAndBdMismatch.siz.bit_depth 1 ≠ engWidthAndBdMismatch.siz.bit_depth 0
  ∧ (ojph_decode_image (some [1]) 1 (some zeroImage) engWidthAndBdMismatch).1 =
      .OJPH_STATUS_UNSUPPORTED
  ∧ (ojph_decode_image (some [1]) 1 (some zeroImage) engWidthAndBdMismatch).2.2.1 =
      some "subsampled components are not yet supported"
  ∧ ¬ ("bit depth".toList <:+:
        "subsampled components are not yet supported".toList) :=
  ⟨by decide, by decide, by decide, by decide⟩
